import Mathlib

/-
Verification of the rate-limited model-selection controller
(`robots_backend/rate_limiter.py`): a shallow embedding of the
`GeminiRateLimiter` class and proofs about its operations.

Modeling conventions:
* Instants (`time.time()` values) are integer seconds since the Unix epoch.
* The Python object `self` becomes an explicit `GeminiRateLimiter` state
  record; methods become functions taking the current clock value `now`
  (each `time.time()` / `datetime.now()` call in one method body reads the
  same instant) and returning the updated state.
* `datetime.fromtimestamp(t).date()` is modeled as the epoch-day number
  `dateOf t` under a fixed UTC reference, as the spec directs for the
  otherwise timezone-ambiguous day comparisons.
* `asyncio.sleep` is a suspension of the single calling task; its effect is
  visible only through the returned delay message, which is what we model.
-/

set_option maxRecDepth 4000

namespace RobotsAI

/-- Record of a single request with timestamp and token count
(`RequestRecord` in `rate_limiter.py`). -/
structure RequestRecord where
  timestamp : Int
  tokens : Nat
deriving DecidableEq, Repr

/-- Rate limits for a specific model (`ModelLimits`). -/
structure ModelLimits where
  requests_per_minute : Nat
  tokens_per_minute : Nat
  requests_per_day : Nat
  model_name : String
deriving DecidableEq, Repr

/-- Current usage tracking for a model (`ModelUsage`). -/
structure ModelUsage where
  requests_today : Nat
  last_day_reset : Int
  request_records : List RequestRecord
deriving DecidableEq, Repr

/-- Model of `ModelUsage.requests_this_minute`: number of stored records whose
timestamp is strictly newer than `now - 60` (the Python property compares
`record.timestamp > cutoff_time` with `cutoff_time = current_time - 60`). -/
def requests_this_minute (now : Int) (u : ModelUsage) : Nat :=
  (u.request_records.filter fun r => now - 60 < r.timestamp).length

/-- Model of `ModelUsage.tokens_this_minute`: token sum over the same window. -/
def tokens_this_minute (now : Int) (u : ModelUsage) : Nat :=
  ((u.request_records.filter fun r => now - 60 < r.timestamp).map
    RequestRecord.tokens).sum

/-- Calendar date of an instant, modeled as the epoch-day number with a fixed
UTC reference: stands for `datetime.fromtimestamp(t).date()`, and
`date1 > date2` becomes `dateOf t2 < dateOf t1`. -/
def dateOf (t : Int) : Int := t / 86400

/-- The mutable state of a `GeminiRateLimiter` instance: the static limit
table and priority list fixed in `__init__`, the per-model usage map, the
currently active model, and the delay configuration. `usage` is total over
strings; the source dictionary has exactly the `model_limits` keys. -/
structure GeminiRateLimiter where
  model_limits : List (String × ModelLimits)
  model_priority : List String
  usage : String → ModelUsage
  current_model : String
  delay_when_approaching_limit : Nat
  approach_threshold : ℚ

/-- Dictionary lookup `self.model_limits[name]`. The default is never
reached for configured model names (Python would raise `KeyError`). -/
def limitsOf (st : GeminiRateLimiter) (name : String) : ModelLimits :=
  ((st.model_limits.find? fun p => p.1 == name).map Prod.snd).getD
    ⟨0, 0, 0, ""⟩

/-- Point update of the usage map `self.usage[name] = u`. -/
def updateUsage (st : GeminiRateLimiter) (name : String) (u : ModelUsage) :
    GeminiRateLimiter :=
  { st with usage := fun m => if m = name then u else st.usage m }

/-- Model of `_cleanup_old_records`: drop records older than 60 seconds, keeping
those with `timestamp > now - 60`. -/
def cleanup_old_records (now : Int) (st : GeminiRateLimiter)
    (name : String) : GeminiRateLimiter :=
  let u := st.usage name
  updateUsage st name
    { u with request_records :=
        u.request_records.filter fun r => now - 60 < r.timestamp }

/-- Model of `_reset_daily_counter_if_needed`: if the calendar date has advanced past
the date of `last_day_reset`, zero `requests_today` and stamp
`last_day_reset := now`. -/
def reset_daily_counter_if_needed (now : Int) (st : GeminiRateLimiter)
    (name : String) : GeminiRateLimiter :=
  let u := st.usage name
  if dateOf u.last_day_reset < dateOf now then
    updateUsage st name { u with requests_today := 0, last_day_reset := now }
  else
    st

/-- Model of `_is_approaching_limit_no_reset`: the 90%-threshold check on the three
quotas, with the reason message of the first limit hit. The float
`approach_threshold = 0.9` is modeled as the rational `9/10`; on the
integer operands involved the float comparisons in the source agree with
exact rational arithmetic. -/
def is_approaching_limit_no_reset (now : Int) (st : GeminiRateLimiter)
    (name : String) (estimated_tokens : Nat) : Bool × String :=
  let limits := limitsOf st name
  let u := st.usage name
  if (limits.requests_per_minute : ℚ) * st.approach_threshold ≤
      (requests_this_minute now u : ℚ) then
    (true, "Approaching requests per minute limit (" ++
      toString (requests_this_minute now u) ++ "/" ++
      toString limits.requests_per_minute ++ ")")
  else if (limits.tokens_per_minute : ℚ) * st.approach_threshold ≤
      ((tokens_this_minute now u + estimated_tokens : Nat) : ℚ) then
    (true, "Approaching tokens per minute limit (" ++
      toString (tokens_this_minute now u + estimated_tokens) ++ "/" ++
      toString limits.tokens_per_minute ++ ")")
  else if (limits.requests_per_day : ℚ) * st.approach_threshold ≤
      (u.requests_today : ℚ) then
    (true, "Approaching requests per day limit (" ++
      toString u.requests_today ++ "/" ++
      toString limits.requests_per_day ++ ")")
  else
    (false, "")

/-- Model of `_has_exceeded_daily_limit_no_reset`:
`usage.requests_today >= limits.requests_per_day`. -/
def has_exceeded_daily_limit_no_reset (st : GeminiRateLimiter)
    (name : String) : Bool :=
  (limitsOf st name).requests_per_day ≤ (st.usage name).requests_today

/-- Model of `_has_exceeded_daily_limit`: runs the daily reset first (mutating the
state), then checks the cap. -/
def has_exceeded_daily_limit (now : Int) (st : GeminiRateLimiter)
    (name : String) : GeminiRateLimiter × Bool :=
  let st1 := reset_daily_counter_if_needed now st name
  (st1, has_exceeded_daily_limit_no_reset st1 name)

/-- The scan loop of `_get_next_available_model` over the tail of the
priority list, threading the state mutated by the resetting daily-limit
check, returning at the first model under its daily cap. -/
def find_next_available (now : Int) :
    GeminiRateLimiter → List String → GeminiRateLimiter × Option String
  | st, [] => (st, none)
  | st, m :: rest =>
    let r := has_exceeded_daily_limit now st m
    if r.2 then find_next_available now r.1 rest else (r.1, some m)

/-- Model of `_get_next_available_model`: scan the priority list strictly after the
current model's position. -/
def get_next_available_model (now : Int) (st : GeminiRateLimiter) :
    GeminiRateLimiter × Option String :=
  let current_index := st.model_priority.indexOf st.current_model
  find_next_available now st (st.model_priority.drop (current_index + 1))

/-- Model of `check_and_wait_if_needed`: returns the updated state, the model to
use, and the delay/switch message (`None` when proceeding immediately).
The `asyncio.sleep` on the delay path suspends only the calling task and
is modeled by the returned delay message. -/
def check_and_wait_if_needed (now : Int) (st : GeminiRateLimiter)
    (estimated_tokens : Nat) : GeminiRateLimiter × String × Option String :=
  if has_exceeded_daily_limit_no_reset st st.current_model then
    match get_next_available_model now st with
    | (st1, some next_model) =>
      let old_model := st1.current_model
      let st2 := { st1 with current_model := next_model }
      (st2, next_model, some ("Switched to " ++ next_model ++
        " model due to daily usage limits on " ++ old_model ++
        ". This conversation will be summarized to maintain context."))
    | (st1, none) =>
      (st1, st1.current_model, some
        "All models have reached their daily limits. Please try again tomorrow.")
  else
    let ar := is_approaching_limit_no_reset now st st.current_model
      estimated_tokens
    if ar.1 then
      (st, st.current_model, some ("Approaching rate limits (" ++ ar.2 ++
        "). Waiting " ++ toString st.delay_when_approaching_limit ++
        " seconds to avoid exceeding limits..."))
    else
      (st, st.current_model, none)

/-- Model of `record_request`: cleanup, daily reset, append the new record,
increment `requests_today`, keep only the most recent 20 records
(Python `[-20:]`). The `_save_usage_data` call has no effect on the
in-memory state. -/
def record_request (now : Int) (st : GeminiRateLimiter) (model_name : String)
    (tokens_used : Nat) : GeminiRateLimiter :=
  let st1 := cleanup_old_records now st model_name
  let st2 := reset_daily_counter_if_needed now st1 model_name
  let u := st2.usage model_name
  let recs := u.request_records ++ [⟨now, tokens_used⟩]
  updateUsage st2 model_name
    { u with requests_today := u.requests_today + 1,
             request_records := recs.drop (recs.length - 20) }

/-- Model of `get_usage_stats` per-model entry: the formatted usage strings and
flags (the `last_updated` wall-clock string of the outer dict is pure
presentation and is carried as the instant itself). -/
structure ModelStats where
  requests_per_minute : String
  tokens_per_minute : String
  requests_per_day : String
  is_current_model : Bool
  daily_limit_exceeded : Bool
deriving DecidableEq, Repr

/-- The `get_usage_stats` loop over `model_limits` keys: per model, cleanup,
format the entry from the usage as of that point, then run the resetting
daily-limit check (whose mutation is seen by later entries), exactly as the
dict literal in the source evaluates. -/
def usage_stats_from (now : Int) :
    GeminiRateLimiter → List String →
      GeminiRateLimiter × List (String × ModelStats)
  | st, [] => (st, [])
  | st, m :: rest =>
    let st1 := cleanup_old_records now st m
    let limits := limitsOf st1 m
    let u := st1.usage m
    let r := has_exceeded_daily_limit now st1 m
    let entry : ModelStats :=
      { requests_per_minute := toString (requests_this_minute now u) ++ "/" ++
          toString limits.requests_per_minute,
        tokens_per_minute := toString (tokens_this_minute now u) ++ "/" ++
          toString limits.tokens_per_minute,
        requests_per_day := toString u.requests_today ++ "/" ++
          toString limits.requests_per_day,
        is_current_model := m == st1.current_model,
        daily_limit_exceeded := r.2 }
    let rec_rest := usage_stats_from now r.1 rest
    (rec_rest.1, (m, entry) :: rec_rest.2)

/-- Model of `get_usage_stats`: statistics for every configured model, plus the
updated state (cleanup and daily resets are applied while iterating). -/
def get_usage_stats (now : Int) (st : GeminiRateLimiter) :
    GeminiRateLimiter × String × List (String × ModelStats) :=
  let r := usage_stats_from now st (st.model_limits.map Prod.fst)
  (r.1, st.current_model, r.2)

/-- The quota-error signature list of `_is_quota_exceeded_error`. -/
def quota_indicators : List String :=
  ["ResourceExhausted: 429",
   "You exceeded your current quota",
   "generativelanguage.googleapis.com/generate_content_free_tier_requests",
   "limit: 200"]

/-- Python `str.lower()`, modeled on the character sequence (all the quota
signatures are ASCII). -/
def lowerChars (s : String) : List Char :=
  s.data.map Char.toLower

/-- Model of `_is_quota_exceeded_error`: case-insensitive substring match against the
known signatures; an empty (falsy) error string is never a quota error. -/
def is_quota_exceeded_error (error_response : String) : Bool :=
  if error_response = "" then false
  else quota_indicators.any fun ind =>
    decide (lowerChars ind <:+: lowerChars error_response)

/-- The loop of `_are_all_models_exhausted` over `model_limits` keys,
threading the state mutated by the resetting daily-limit check and
stopping early at the first model under its cap. -/
def all_exhausted_from (now : Int) :
    GeminiRateLimiter → List String → GeminiRateLimiter × Bool
  | st, [] => (st, true)
  | st, m :: rest =>
    let r := has_exceeded_daily_limit now st m
    if r.2 then all_exhausted_from now r.1 rest else (r.1, false)

/-- Model of `_are_all_models_exhausted`: do all configured models sit at their
daily caps (after any pending daily resets)? -/
def are_all_models_exhausted (now : Int) (st : GeminiRateLimiter) :
    GeminiRateLimiter × Bool :=
  all_exhausted_from now st (st.model_limits.map Prod.fst)

/-- Model of `record_request_with_error_handling`. The Conversation-Context Bridge
(`_get_conversation_history` + `_summarize_conversation`) is external I/O
(agent state store and an HTTP summarization endpoint); it only affects the
optional summary-length suffix of the switch message, and is modeled as
producing no summary, so `summary_info` is empty exactly as when the
caller passes no conversation context. -/
def record_request_with_error_handling (now : Int) (st : GeminiRateLimiter)
    (model_name : String) (tokens_used : Nat) (api_error : Option String) :
    GeminiRateLimiter × String × Option String :=
  match api_error with
  | some err =>
    if is_quota_exceeded_error err then
      -- capture exhaustion status BEFORE marking the current model
      let r0 := are_all_models_exhausted now st
      let all_models_were_exhausted_before := r0.2
      let st1 := r0.1
      -- force the failing model to its daily cap
      let limits := limitsOf st1 model_name
      let u := st1.usage model_name
      let st2 := updateUsage st1 model_name
        { u with requests_today := limits.requests_per_day }
      -- try to switch to the next available model
      let r1 := get_next_available_model now st2
      let st3 := r1.1
      let switched : Option (GeminiRateLimiter × String × Option String) :=
        match r1.2 with
        | some next_model =>
          if next_model ≠ st3.current_model then
            let old_model := st3.current_model
            some ({ st3 with current_model := next_model }, next_model,
              some ("API quota exceeded for " ++ old_model ++
                ". Automatically switched to " ++ next_model ++
                " for continued service."))
          else none
        | none => none
      match switched with
      | some out => out
      | none =>
        if all_models_were_exhausted_before then
          (st3, st3.current_model, some "ALL_MODELS_EXHAUSTED")
        else
          (st3, st3.current_model, some ("TEMPORARY_API_ISSUE:" ++ model_name))
    else
      (record_request now st model_name tokens_used, st.current_model, none)
  | none => (record_request now st model_name tokens_used, st.current_model, none)

/-- Model of `estimate_tokens`: `max(len(text) // 4, 100)`. -/
def estimate_tokens (text : String) : Nat :=
  max (text.length / 4) 100

/-- An ISO-8601 timestamp string, modeled by its denotation under the fixed
UTC reference: the calendar date (as the epoch-day number) and the second
of day. `datetime.fromtimestamp(t).isoformat()` renders exactly this
information; the digit rendering itself is presentation. -/
structure IsoTimestamp where
  day : Int
  second_of_day : Int
deriving DecidableEq, Repr

/-- A timestamp value as it appears in the persisted JSON file: a legacy
epoch number, a current-format ISO-8601 string, or an unparseable value. -/
inductive StoredTimestamp where
  | unix (t : Int)
  | iso (s : IsoTimestamp)
  | malformed
deriving DecidableEq, Repr

/-- Model of `datetime.fromtimestamp(t).isoformat()`: encode an instant as the
ISO-8601 calendar date and second of day. -/
def isoOfInstant (t : Int) : IsoTimestamp :=
  ⟨t / 86400, t % 86400⟩

/-- Model of `_parse_timestamp`: epoch numbers pass through, ISO strings are parsed
back to an instant (`datetime.fromisoformat(s).timestamp()`), anything
unparseable falls back to the current time. -/
def parse_timestamp (now : Int) : StoredTimestamp → Int
  | .unix t => t
  | .iso s => s.day * 86400 + s.second_of_day
  | .malformed => now

/-- One record in the persisted file. -/
structure StoredRecord where
  timestamp : StoredTimestamp
  tokens : Nat
deriving DecidableEq, Repr

/-- One model's entry in the persisted file. -/
structure StoredModelUsage where
  requests_today : Nat
  last_day_reset : StoredTimestamp
  request_records : List StoredRecord
deriving DecidableEq, Repr

/-- Model of `_save_usage_data`: for every configured model, write `requests_today`,
`last_day_reset` as an ISO string, and the most recent 20 records with ISO
timestamps (the usage dict has exactly the `model_limits` keys, in that
order). -/
def save_usage_data (st : GeminiRateLimiter) :
    List (String × StoredModelUsage) :=
  st.model_limits.map fun p =>
    let u := st.usage p.1
    let recent := u.request_records.drop (u.request_records.length - 20)
    (p.1,
      { requests_today := u.requests_today,
        last_day_reset := .iso (isoOfInstant u.last_day_reset),
        request_records := recent.map fun r =>
          { timestamp := .iso (isoOfInstant r.timestamp),
            tokens := r.tokens } })

/-- Model of `_load_usage_data` applied to already-decoded file contents: for each
entry whose model is known, parse `last_day_reset`, zero `requests_today`
(and restamp) if the saved date is past, and keep only the stored records
whose parsed timestamp is within the last 60 seconds. The final
`_save_usage_data` call only rewrites the file. -/
def load_usage_data (now : Int) (data : List (String × StoredModelUsage))
    (st : GeminiRateLimiter) : GeminiRateLimiter :=
  data.foldl
    (fun acc entry =>
      if (acc.model_limits.map Prod.fst).contains entry.1 then
        let sd := entry.2
        let ldr0 := parse_timestamp now sd.last_day_reset
        let new_day := dateOf ldr0 < dateOf now
        updateUsage acc entry.1
          { requests_today := if new_day then 0 else sd.requests_today,
            last_day_reset := if new_day then now else ldr0,
            request_records := sd.request_records.filterMap fun r =>
              let ts := parse_timestamp now r.timestamp
              if now - 60 < ts then some ⟨ts, r.tokens⟩ else none }
      else acc)
    st

/-- The static limit table built in `__init__`, in dictionary order. -/
def default_model_limits : List (String × ModelLimits) :=
  [("gemini-2.5-flash-lite-preview-06-17",
     ⟨15, 250000, 1000, "gemini-2.5-flash-lite-preview-06-17"⟩),
   ("gemini-2.5-flash-lite-preview-09-2025",
     ⟨15, 250000, 1000, "gemini-2.5-flash-lite-preview-09-2025"⟩),
   ("gemini-2.0-flash-lite",
     ⟨30, 1000000, 200, "gemini-2.0-flash-lite"⟩),
   ("gemini-2.0-flash-lite-001",
     ⟨30, 1000000, 200, "gemini-2.0-flash-lite"⟩),
   ("gemini-2.5-flash-lite",
     ⟨10, 250000, 1000, "gemini-2.5-flash-lite"⟩),
   ("gemini-2.5-flash",
     ⟨10, 250000, 250, "gemini-2.5-flash"⟩)]

/-- The fallback priority order fixed in `__init__`. -/
def default_model_priority : List String :=
  ["gemini-2.5-flash-lite-preview-06-17",
   "gemini-2.5-flash-lite-preview-09-2025",
   "gemini-2.0-flash-lite",
   "gemini-2.0-flash-lite-001",
   "gemini-2.5-flash-lite",
   "gemini-2.5-flash"]

/-- Model of `GeminiRateLimiter.__init__` at instant `now` with persisted file
contents `data` (the empty list models a missing file): fresh `ModelUsage`
entries (`last_day_reset = time.time()`), highest-priority current model,
then `_load_usage_data`, then the delay configuration. -/
def mkGeminiRateLimiter (now : Int) (data : List (String × StoredModelUsage)) :
    GeminiRateLimiter :=
  load_usage_data now data
    { model_limits := default_model_limits,
      model_priority := default_model_priority,
      usage := fun _ => ⟨0, now, []⟩,
      current_model := "gemini-2.5-flash-lite-preview-06-17",
      delay_when_approaching_limit := 35,
      approach_threshold := 9 / 10 }

/-! ### Basic state lemmas -/

@[simp]
lemma updateUsage_usage_self (st : GeminiRateLimiter) (name : String)
    (u : ModelUsage) : (updateUsage st name u).usage name = u := by
  simp [updateUsage]

lemma updateUsage_usage_ne (st : GeminiRateLimiter) {m name : String}
    (h : m ≠ name) (u : ModelUsage) :
    (updateUsage st name u).usage m = st.usage m := by
  simp [updateUsage, h]

@[simp]
lemma updateUsage_model_limits (st : GeminiRateLimiter) (name : String)
    (u : ModelUsage) : (updateUsage st name u).model_limits = st.model_limits :=
  rfl

@[simp]
lemma updateUsage_model_priority (st : GeminiRateLimiter) (name : String)
    (u : ModelUsage) :
    (updateUsage st name u).model_priority = st.model_priority := rfl

@[simp]
lemma updateUsage_current_model (st : GeminiRateLimiter) (name : String)
    (u : ModelUsage) : (updateUsage st name u).current_model = st.current_model :=
  rfl

@[simp]
lemma updateUsage_approach_threshold (st : GeminiRateLimiter) (name : String)
    (u : ModelUsage) :
    (updateUsage st name u).approach_threshold = st.approach_threshold := rfl

@[simp]
lemma limitsOf_updateUsage (st : GeminiRateLimiter) (name n : String)
    (u : ModelUsage) : limitsOf (updateUsage st name u) n = limitsOf st n := rfl

/-- No model has a pending day rollover at instant `now`: every
`last_day_reset` already lies on (or after) the calendar day of `now`. -/
def no_pending_day_rollover (now : Int) (st : GeminiRateLimiter) : Prop :=
  ∀ m, ¬ dateOf ((st.usage m).last_day_reset) < dateOf now

lemma reset_daily_counter_noop {now : Int} {st : GeminiRateLimiter}
    {name : String}
    (h : ¬ dateOf ((st.usage name).last_day_reset) < dateOf now) :
    reset_daily_counter_if_needed now st name = st := by
  simp [reset_daily_counter_if_needed, h]

lemma has_exceeded_daily_limit_no_rollover {now : Int}
    {st : GeminiRateLimiter} {name : String}
    (h : ¬ dateOf ((st.usage name).last_day_reset) < dateOf now) :
    has_exceeded_daily_limit now st name =
      (st, has_exceeded_daily_limit_no_reset st name) := by
  simp [has_exceeded_daily_limit, reset_daily_counter_noop h]

lemma find_next_available_no_rollover {now : Int} {st : GeminiRateLimiter}
    (h : no_pending_day_rollover now st) :
    ∀ l : List String,
      find_next_available now st l =
        (st, l.find? fun m => ! has_exceeded_daily_limit_no_reset st m)
  | [] => rfl
  | m :: rest => by
    rw [find_next_available, has_exceeded_daily_limit_no_rollover (h m)]
    by_cases hx : has_exceeded_daily_limit_no_reset st m
    · simp [hx, find_next_available_no_rollover h rest, List.find?]
    · simp [hx, List.find?]

lemma all_exhausted_from_no_rollover {now : Int} {st : GeminiRateLimiter}
    (h : no_pending_day_rollover now st) :
    ∀ l : List String,
      all_exhausted_from now st l =
        (st, l.all fun m => has_exceeded_daily_limit_no_reset st m)
  | [] => rfl
  | m :: rest => by
    rw [all_exhausted_from, has_exceeded_daily_limit_no_rollover (h m)]
    by_cases hx : has_exceeded_daily_limit_no_reset st m
    · simp [hx, all_exhausted_from_no_rollover h rest]
    · simp [hx]

/-! ### C9: token estimation -/

/-- C9: `estimate_tokens` is `max(len(text) // 4, 100)` for every string; in
particular the empty string estimates to the floor 100 and a 1000-character
string to 250. -/
theorem estimate_tokens_spec :
    (∀ text : String, estimate_tokens text = max (text.length / 4) 100) ∧
    estimate_tokens "" = 100 ∧
    estimate_tokens (String.mk (List.replicate 1000 'x')) = 250 := by
  refine ⟨fun _ => rfl, rfl, ?_⟩
  show max (String.length ⟨List.replicate 1000 'x'⟩ / 4) 100 = 250
  rw [String.length, List.length_replicate]
  decide

/-! ### C6: daily reset idempotence -/

/-- C6: `reset_daily_counter_if_needed` zeroes `requests_today` and restamps
`last_day_reset` exactly when the calendar day of `now` is past the day of
`last_day_reset`, and a second call at the same instant is a no-op, so
within one day the counter is zeroed at most once. -/
theorem reset_daily_counter_idempotent (now : Int) (st : GeminiRateLimiter)
    (name : String) :
    reset_daily_counter_if_needed now
        (reset_daily_counter_if_needed now st name) name =
      reset_daily_counter_if_needed now st name ∧
    reset_daily_counter_if_needed now st name =
      (if dateOf ((st.usage name).last_day_reset) < dateOf now then
        updateUsage st name
          { st.usage name with requests_today := 0, last_day_reset := now }
      else st) := by
  constructor
  · by_cases h : dateOf ((st.usage name).last_day_reset) < dateOf now
    · have h1 : reset_daily_counter_if_needed now st name =
          updateUsage st name
            { st.usage name with requests_today := 0, last_day_reset := now } := by
        rw [reset_daily_counter_if_needed, if_pos h]
      rw [h1]
      exact reset_daily_counter_noop (by simp)
    · rw [reset_daily_counter_noop h, reset_daily_counter_noop h]
  · rfl

/-! ### C7: record truncation -/

/-- A minimal one-model controller used in concrete scenarios: model `"M"`
with 10 requests/minute, 250000 tokens/minute, daily cap 1000. -/
def demo_state : GeminiRateLimiter :=
  { model_limits := [("M", ⟨10, 250000, 1000, "M"⟩)],
    model_priority := ["M"],
    usage := fun _ => ⟨0, 0, []⟩,
    current_model := "M",
    delay_when_approaching_limit := 35,
    approach_threshold := 9 / 10 }

/-- C7: after any `record_request` the stored record list is the
most-recent-20 suffix of the cleaned-up list with the new record appended
(so it has length at most 20, order preserved, newest last); concretely, 25
calls in one minute keep exactly the 20 newest records, dropping the 5
oldest. -/
theorem record_request_truncation :
    (∀ (now : Int) (st : GeminiRateLimiter) (name : String) (tok : Nat),
      ((record_request now st name tok).usage name).request_records =
        (((st.usage name).request_records.filter
            fun (r : RequestRecord) => now - 60 < r.timestamp) ++
          [({ timestamp := now, tokens := tok } : RequestRecord)]).drop
          ((((st.usage name).request_records.filter
            fun (r : RequestRecord) => now - 60 < r.timestamp) ++
          [({ timestamp := now, tokens := tok } : RequestRecord)]).length - 20) ∧
      ((record_request now st name tok).usage name).request_records.length ≤ 20 ∧
      ((record_request now st name tok).usage name).request_records.getLast? =
        some { timestamp := now, tokens := tok }) ∧
    (((List.range 25).foldl
        (fun s i => record_request (i : Int) s "M" 0) demo_state).usage
          "M").request_records =
      ((List.range 25).drop 5).map fun i => ⟨(i : Int), 0⟩ := by
  constructor
  · intro now st name tok
    have hrecs :
        ((record_request now st name tok).usage name).request_records =
          (((st.usage name).request_records.filter
              fun (r : RequestRecord) => now - 60 < r.timestamp) ++
            [({ timestamp := now, tokens := tok } : RequestRecord)]).drop
            ((((st.usage name).request_records.filter
              fun (r : RequestRecord) => now - 60 < r.timestamp) ++
            [({ timestamp := now, tokens := tok } : RequestRecord)]).length - 20) := by
      rw [record_request]
      by_cases h : dateOf (((cleanup_old_records now st name).usage
          name).last_day_reset) < dateOf now
      · rw [reset_daily_counter_if_needed, if_pos h]
        simp [cleanup_old_records, updateUsage]
      · rw [reset_daily_counter_noop h]
        simp [cleanup_old_records, updateUsage]
    refine ⟨hrecs, ?_, ?_⟩
    · rw [hrecs, List.length_drop]
      omega
    · rw [hrecs]
      rw [List.drop_append_of_le_length (by simp)]
      exact List.getLast?_concat _
  · decide

/-! ### C4: sliding window -/

/-- C4 (amended): the minute-window aggregates count exactly the stored
records whose timestamp is within the last 60 seconds, and
`cleanup_old_records` removes exactly the records aged 60 seconds or more;
reading the window 61 seconds past the oldest record excludes that record
and, provided every remaining record is then strictly inside the window,
counts exactly the remaining records. -/
theorem sliding_window_aggregates (now : Int) (u : ModelUsage) :
    requests_this_minute now u =
      (u.request_records.filter
        fun (r : RequestRecord) => now - 60 < r.timestamp).length ∧
    tokens_this_minute now u =
      ((u.request_records.filter
        fun (r : RequestRecord) => now - 60 < r.timestamp).map
          RequestRecord.tokens).sum ∧
    (∀ (st : GeminiRateLimiter) (name : String),
      ((cleanup_old_records now st name).usage name).request_records =
        (st.usage name).request_records.filter
          fun (r : RequestRecord) => now - 60 < r.timestamp) ∧
    (∀ (first : RequestRecord) (rest : List RequestRecord),
      u.request_records = first :: rest →
      (∀ r ∈ rest, first.timestamp + 1 < r.timestamp) →
      requests_this_minute (first.timestamp + 61) u = rest.length) := by
  refine ⟨rfl, rfl, fun st name => by simp [cleanup_old_records], ?_⟩
  intro first rest hrec hgap
  have he : first.timestamp + 61 - 60 = first.timestamp + 1 := by ring
  rw [requests_this_minute, hrec, List.filter_cons]
  simp only [he]
  have h1 : decide (first.timestamp + 1 < first.timestamp) = false := by
    simp
  rw [h1]
  simp only [Bool.false_eq_true, if_false]
  rw [List.filter_eq_self.mpr fun a ha => by simpa using hgap a ha]

/-- The state after two `record_request` calls one second apart. -/
def window_demo : GeminiRateLimiter :=
  record_request 1 (record_request 0 demo_state "M" 0) "M" 0

/-- C4 counterexample: with stored records at seconds 0 and 1, reading the
minute window at instant 61 (exactly 61 seconds past the oldest record)
counts 0 records, not the 1 that "the count excluding that oldest record"
predicts: the second record is then exactly 60 seconds old and also falls
outside the strict window. -/
theorem sliding_window_oldest_counterexample :
    (window_demo.usage "M").request_records =
      [{ timestamp := 0, tokens := 0 }, { timestamp := 1, tokens := 0 }] ∧
    requests_this_minute (0 + 61) (window_demo.usage "M") ≠ 2 - 1 := by
  decide

/-! ### C1: daily fallback ordering -/

/-- C1: with no day rollover pending and the current model at (or past) its
daily cap, `check_and_wait_if_needed` switches to the first model strictly
after the current one in priority order that is below its own daily cap and
returns it with the switch message; when every later model is at its cap it
leaves the current model unchanged and returns the all-exhausted message. -/
theorem check_and_wait_daily_fallback (now : Int) (st : GeminiRateLimiter)
    (est : Nat)
    (hday : no_pending_day_rollover now st)
    (hex : has_exceeded_daily_limit_no_reset st st.current_model = true) :
    check_and_wait_if_needed now st est =
      match (st.model_priority.drop
          (st.model_priority.indexOf st.current_model + 1)).find?
          (fun m => ! has_exceeded_daily_limit_no_reset st m) with
      | some m =>
        ({ st with current_model := m }, m, some ("Switched to " ++ m ++
          " model due to daily usage limits on " ++ st.current_model ++
          ". This conversation will be summarized to maintain context."))
      | none =>
        (st, st.current_model, some
          "All models have reached their daily limits. Please try again tomorrow.") := by
  rcases hfind : (st.model_priority.drop
      (st.model_priority.indexOf st.current_model + 1)).find?
      (fun m => ! has_exceeded_daily_limit_no_reset st m) with _ | m <;>
    simp only [check_and_wait_if_needed, hex, if_true, get_next_available_model,
      find_next_available_no_rollover hday, hfind]

/-- A three-model controller with priority `["A", "B", "C"]`, daily caps 1,
models A and B at their caps and C untouched. -/
def fallback_demo : GeminiRateLimiter :=
  { model_limits := [("A", ⟨10, 250000, 1, "A"⟩), ("B", ⟨10, 250000, 1, "B"⟩),
      ("C", ⟨10, 250000, 1, "C"⟩)],
    model_priority := ["A", "B", "C"],
    usage := fun m => ⟨if m == "A" then 1 else if m == "B" then 1 else 0, 0, []⟩,
    current_model := "A",
    delay_when_approaching_limit := 35,
    approach_threshold := 9 / 10 }

/-- C1 witness: at the concrete three-model state with A and B exhausted,
the call switches to C with the switch message. -/
theorem check_and_wait_daily_fallback_witness :
    check_and_wait_if_needed 0 fallback_demo 1000 =
      ({ fallback_demo with current_model := "C" }, "C",
        some ("Switched to " ++ "C" ++
          " model due to daily usage limits on " ++ fallback_demo.current_model ++
          ". This conversation will be summarized to maintain context.")) :=
  check_and_wait_daily_fallback 0 fallback_demo 1000
    (fun m => by change ¬ dateOf (0 : Int) < dateOf 0; decide) (by decide)

/-! ### C3: proactive throttling threshold -/

/-- The 90%-threshold comparison on integer operands is exact: `r ≥ c * 9/10`
over ℚ is the cross-multiplied integer comparison. -/
lemma threshold_iff (c r : ℕ) :
    ((c : ℚ) * (9 / 10) ≤ (r : ℚ)) ↔ 9 * c ≤ 10 * r := by
  rw [mul_comm, div_mul_eq_mul_div, div_le_iff₀ (by norm_num : (0 : ℚ) < 10)]
  constructor
  · intro h
    exact_mod_cast (by push_cast at h ⊢; linarith : ((9 * c : ℕ) : ℚ) ≤ ((10 * r : ℕ) : ℚ))
  · intro h
    have : ((9 * c : ℕ) : ℚ) ≤ ((10 * r : ℕ) : ℚ) := by exact_mod_cast h
    push_cast at this ⊢
    linarith

/-- The boolean of `_is_approaching_limit_no_reset` holds exactly when one
of the three 90% conditions does. -/
lemma is_approaching_limit_iff (now : Int) (st : GeminiRateLimiter)
    (name : String) (est : Nat) (hth : st.approach_threshold = 9 / 10) :
    ((is_approaching_limit_no_reset now st name est).1 = true) ↔
      (9 * (limitsOf st name).requests_per_minute ≤
        10 * requests_this_minute now (st.usage name) ∨
       9 * (limitsOf st name).tokens_per_minute ≤
        10 * (tokens_this_minute now (st.usage name) + est) ∨
       9 * (limitsOf st name).requests_per_day ≤
        10 * (st.usage name).requests_today) := by
  rw [is_approaching_limit_no_reset, hth]
  split_ifs with h1 h2 h3
  · exact iff_of_true rfl (Or.inl ((threshold_iff _ _).mp h1))
  · exact iff_of_true rfl (Or.inr (Or.inl ((threshold_iff _ _).mp (by exact_mod_cast h2))))
  · exact iff_of_true rfl (Or.inr (Or.inr ((threshold_iff _ _).mp h3)))
  · refine iff_of_false (by simp) ?_
    rintro (h | h | h)
    · exact h1 ((threshold_iff _ _).mpr h)
    · exact h2 (by exact_mod_cast (threshold_iff _ _).mpr h)
    · exact h3 ((threshold_iff _ _).mpr h)

/-- C3: when the current model is not daily-exhausted,
`check_and_wait_if_needed` keeps the current model, and it takes the delay
path (returning a delay message after the 35-second suspension) exactly
when requests-this-minute is at least 90% of the per-minute cap, or
tokens-this-minute plus the estimate is at least 90% of the token cap, or
requests-today is at least 90% of the daily cap; otherwise it returns the
unchanged state with no message. -/
theorem check_and_wait_throttle_threshold (now : Int)
    (st : GeminiRateLimiter) (est : Nat)
    (hth : st.approach_threshold = 9 / 10)
    (hnotex : has_exceeded_daily_limit_no_reset st st.current_model = false) :
    (check_and_wait_if_needed now st est).2.1 = st.current_model ∧
    (((check_and_wait_if_needed now st est).2.2).isSome = true ↔
      (9 * (limitsOf st st.current_model).requests_per_minute ≤
        10 * requests_this_minute now (st.usage st.current_model) ∨
       9 * (limitsOf st st.current_model).tokens_per_minute ≤
        10 * (tokens_this_minute now (st.usage st.current_model) + est) ∨
       9 * (limitsOf st st.current_model).requests_per_day ≤
        10 * (st.usage st.current_model).requests_today)) ∧
    ((check_and_wait_if_needed now st est).2.2 = none →
      check_and_wait_if_needed now st est = (st, st.current_model, none)) := by
  have hbody : check_and_wait_if_needed now st est =
      (if (is_approaching_limit_no_reset now st st.current_model est).1 then
        (st, st.current_model, some ("Approaching rate limits (" ++
          (is_approaching_limit_no_reset now st st.current_model est).2 ++
          "). Waiting " ++ toString st.delay_when_approaching_limit ++
          " seconds to avoid exceeding limits..."))
      else (st, st.current_model, none)) := by
    rw [check_and_wait_if_needed]
    simp only [hnotex, Bool.false_eq_true, if_false]
  by_cases har : (is_approaching_limit_no_reset now st st.current_model est).1
  · rw [hbody, if_pos har]
    refine ⟨rfl, ?_, ?_⟩
    · simpa using (is_approaching_limit_iff now st st.current_model est hth).mp har
    · intro h
      simp at h
  · rw [hbody, if_neg har]
    refine ⟨rfl, ?_, fun _ => rfl⟩
    simp only [Option.isSome_none, Bool.false_eq_true, false_iff]
    intro hcontra
    exact har ((is_approaching_limit_iff now st st.current_model est hth).mpr hcontra)

/-- A one-model controller whose model allows 10 requests/minute, with 9
requests already recorded in the last minute. -/
def throttle_demo : GeminiRateLimiter :=
  { demo_state with
    usage := fun _ => ⟨0, 0, (List.range 9).map fun i => ⟨(i : Int), 0⟩⟩ }

/-- C3 witness: at the concrete nine-records state with the per-minute cap
10, the characterization applies: here 9 requests sit in the window, so the
delay path is taken (9 ≥ 90% of 10). -/
theorem check_and_wait_throttle_threshold_witness :
    (check_and_wait_if_needed 30 throttle_demo 1000).2.1 =
      throttle_demo.current_model ∧
    (((check_and_wait_if_needed 30 throttle_demo 1000).2.2).isSome = true ↔
      (9 * (limitsOf throttle_demo throttle_demo.current_model).requests_per_minute ≤
        10 * requests_this_minute 30 (throttle_demo.usage throttle_demo.current_model) ∨
       9 * (limitsOf throttle_demo throttle_demo.current_model).tokens_per_minute ≤
        10 * (tokens_this_minute 30 (throttle_demo.usage throttle_demo.current_model) + 1000) ∨
       9 * (limitsOf throttle_demo throttle_demo.current_model).requests_per_day ≤
        10 * (throttle_demo.usage throttle_demo.current_model).requests_today)) ∧
    ((check_and_wait_if_needed 30 throttle_demo 1000).2.2 = none →
      check_and_wait_if_needed 30 throttle_demo 1000 =
        (throttle_demo, throttle_demo.current_model, none)) :=
  check_and_wait_throttle_threshold 30 throttle_demo 1000 rfl (by decide)

/-! ### C2: quota-error sentinels -/

lemma no_pending_day_rollover_updateUsage {now : Int}
    {st : GeminiRateLimiter} {name : String} {u : ModelUsage}
    (h : no_pending_day_rollover now st)
    (hldr : u.last_day_reset = (st.usage name).last_day_reset) :
    no_pending_day_rollover now (updateUsage st name u) := by
  intro m
  by_cases hm : m = name
  · subst hm
    rw [updateUsage_usage_self, hldr]
    exact h m
  · rw [updateUsage_usage_ne st hm]
    exact h m

/-- C2: on a quota-classified API error, when the post-marking search finds
no model after the current one with daily headroom, the call leaves the
current model in place, forces the failing model's `requests_today` to its
cap, and returns `"ALL_MODELS_EXHAUSTED"` exactly when every configured
model was already at its daily cap in the state before the forcing, and
`"TEMPORARY_API_ISSUE:<model>"` otherwise. -/
theorem quota_error_sentinels (now : Int) (st : GeminiRateLimiter)
    (name : String) (tok : Nat) (err : String)
    (hq : is_quota_exceeded_error err = true)
    (hday : no_pending_day_rollover now st)
    (hnonext : (get_next_available_model now
        (updateUsage st name
          { st.usage name with
              requests_today := (limitsOf st name).requests_per_day })).2 =
      none) :
    record_request_with_error_handling now st name tok (some err) =
      (updateUsage st name
        { st.usage name with
            requests_today := (limitsOf st name).requests_per_day },
       st.current_model,
       some (if (st.model_limits.map Prod.fst).all
             (fun m => has_exceeded_daily_limit_no_reset st m) then
           "ALL_MODELS_EXHAUSTED"
         else
           "TEMPORARY_API_ISSUE:" ++ name)) := by
  have hall : are_all_models_exhausted now st =
      (st, (st.model_limits.map Prod.fst).all
        fun m => has_exceeded_daily_limit_no_reset st m) := by
    rw [are_all_models_exhausted]
    exact all_exhausted_from_no_rollover hday _
  have hday2 : no_pending_day_rollover now
      (updateUsage st name
        { st.usage name with
            requests_today := (limitsOf st name).requests_per_day }) :=
    no_pending_day_rollover_updateUsage hday rfl
  have hfind : ((st.model_priority.drop
      (st.model_priority.indexOf st.current_model + 1)).find?
      fun m => ! has_exceeded_daily_limit_no_reset
        (updateUsage st name
          { st.usage name with
              requests_today := (limitsOf st name).requests_per_day }) m) =
      none := by
    have := hnonext
    rw [get_next_available_model, find_next_available_no_rollover hday2] at this
    simpa using this
  show (record_request_with_error_handling now st name tok (some err)) = _
  rw [record_request_with_error_handling]
  simp only [hq, if_true, hall, get_next_available_model,
    updateUsage_model_priority, updateUsage_current_model,
    find_next_available_no_rollover hday2, hfind]
  split <;> rfl

/-- A three-model controller with every model at its daily cap 1. -/
def quota_demo : GeminiRateLimiter :=
  { fallback_demo with usage := fun _ => ⟨1, 0, []⟩ }

/-- C2 witness: injecting a quota error into the all-exhausted concrete
state returns the `ALL_MODELS_EXHAUSTED` sentinel with the failing model
clamped to its cap. -/
theorem quota_error_sentinels_witness :
    record_request_with_error_handling 0 quota_demo "A" 0
        (some "You exceeded your current quota") =
      (updateUsage quota_demo "A"
        { quota_demo.usage "A" with
            requests_today := (limitsOf quota_demo "A").requests_per_day },
       quota_demo.current_model,
       some (if (quota_demo.model_limits.map Prod.fst).all
             (fun m => has_exceeded_daily_limit_no_reset quota_demo m) then
           "ALL_MODELS_EXHAUSTED"
         else
           "TEMPORARY_API_ISSUE:" ++ "A")) :=
  quota_error_sentinels 0 quota_demo "A" 0 "You exceeded your current quota"
    (by decide)
    (fun m => by change ¬ dateOf (0 : Int) < dateOf 0; decide)
    (by decide)

/-! ### C5: daily counter monotonicity within a day -/

lemma cleanup_usage_requests_today (now : Int) (st : GeminiRateLimiter)
    (n m : String) :
    ((cleanup_old_records now st n).usage m).requests_today =
      (st.usage m).requests_today := by
  by_cases hm : m = n
  · subst hm
    simp [cleanup_old_records]
  · simp [cleanup_old_records, updateUsage_usage_ne st hm]

lemma cleanup_usage_last_day_reset (now : Int) (st : GeminiRateLimiter)
    (n m : String) :
    ((cleanup_old_records now st n).usage m).last_day_reset =
      (st.usage m).last_day_reset := by
  by_cases hm : m = n
  · subst hm
    simp [cleanup_old_records]
  · simp [cleanup_old_records, updateUsage_usage_ne st hm]

lemma no_pending_day_rollover_cleanup {now : Int} {st : GeminiRateLimiter}
    (n : String) (h : no_pending_day_rollover now st) :
    no_pending_day_rollover now (cleanup_old_records now st n) := by
  intro m
  rw [cleanup_usage_last_day_reset]
  exact h m

lemma check_and_wait_usage_no_rollover {now : Int} {st : GeminiRateLimiter}
    (hday : no_pending_day_rollover now st) (est : Nat) :
    ((check_and_wait_if_needed now st est).1).usage = st.usage := by
  by_cases hex : has_exceeded_daily_limit_no_reset st st.current_model
  · rcases hfind : (st.model_priority.drop
        (st.model_priority.indexOf st.current_model + 1)).find?
        (fun m => ! has_exceeded_daily_limit_no_reset st m) with _ | m <;>
      simp only [check_and_wait_if_needed, hex, if_true,
        get_next_available_model, find_next_available_no_rollover hday, hfind]
  · simp only [check_and_wait_if_needed, hex, Bool.false_eq_true, if_false]
    split <;> rfl

lemma record_request_requests_today_no_rollover {now : Int}
    {st : GeminiRateLimiter} {name : String}
    (hday : ¬ dateOf ((st.usage name).last_day_reset) < dateOf now)
    (tok : Nat) (m : String) :
    ((record_request now st name tok).usage m).requests_today =
      if m = name then (st.usage m).requests_today + 1
      else (st.usage m).requests_today := by
  rw [record_request]
  have hnr : ¬ dateOf (((cleanup_old_records now st name).usage
      name).last_day_reset) < dateOf now := by
    rw [cleanup_usage_last_day_reset]
    exact hday
  rw [reset_daily_counter_noop hnr]
  by_cases hm : m = name
  · subst hm
    simp [cleanup_usage_requests_today]
  · simp [updateUsage_usage_ne _ hm, cleanup_usage_requests_today, hm]

lemma usage_stats_from_requests_today (now : Int) :
    ∀ (l : List String) (st : GeminiRateLimiter),
      no_pending_day_rollover now st → ∀ m : String,
      (((usage_stats_from now st l).1).usage m).requests_today =
        (st.usage m).requests_today
  | [], _, _, _ => rfl
  | n :: rest, st, h, m => by
    have h1 := no_pending_day_rollover_cleanup n h
    rw [usage_stats_from, has_exceeded_daily_limit_no_rollover (h1 n)]
    rw [usage_stats_from_requests_today now rest _ h1 m,
      cleanup_usage_requests_today]

lemma rrweh_usage_quota {now : Int} {st : GeminiRateLimiter} {name : String}
    {tok : Nat} {err : String}
    (hq : is_quota_exceeded_error err = true)
    (hday : no_pending_day_rollover now st) :
    ((record_request_with_error_handling now st name tok (some err)).1).usage =
      (updateUsage st name
        { st.usage name with
            requests_today := (limitsOf st name).requests_per_day }).usage := by
  have hall : are_all_models_exhausted now st =
      (st, (st.model_limits.map Prod.fst).all
        fun m => has_exceeded_daily_limit_no_reset st m) := by
    rw [are_all_models_exhausted]
    exact all_exhausted_from_no_rollover hday _
  have hday2 : no_pending_day_rollover now
      (updateUsage st name
        { st.usage name with
            requests_today := (limitsOf st name).requests_per_day }) :=
    no_pending_day_rollover_updateUsage hday rfl
  rw [record_request_with_error_handling]
  simp only [hq, if_true, hall, get_next_available_model,
    updateUsage_model_priority, updateUsage_current_model,
    find_next_available_no_rollover hday2]
  rcases hfind : (st.model_priority.drop
      (st.model_priority.indexOf st.current_model + 1)).find?
      (fun m => ! has_exceeded_daily_limit_no_reset
        (updateUsage st name
          { st.usage name with
              requests_today := (limitsOf st name).requests_per_day }) m) with _ | nm
  · simp only [hfind]
    split <;> rfl
  · simp only [hfind]
    by_cases hnm : nm ≠ st.current_model
    · rw [if_pos hnm]
    · rw [if_neg hnm]
      split
      · rename_i heq
        exact absurd heq (by simp)
      · split <;> rfl

lemma rrweh_state_non_quota_some {now : Int} {st : GeminiRateLimiter}
    {name : String} {tok : Nat} {err : String}
    (hq : is_quota_exceeded_error err = false) :
    (record_request_with_error_handling now st name tok (some err)).1 =
      record_request now st name tok := by
  rw [record_request_with_error_handling]
  simp only [hq, Bool.false_eq_true, if_false]

/-- C5 (amended): within a calendar day (no rollover pending at `now`), no
controller operation decreases any model's `requests_today`, with one
exception: `record_request_with_error_handling` on a quota-classified error
sets the failing model's counter to exactly its daily cap, which clamps it
down when the recorded count already exceeded the cap. -/
theorem requests_today_monotone_within_day (now : Int)
    (st : GeminiRateLimiter)
    (hday : no_pending_day_rollover now st) :
    (∀ (est : Nat) (m : String),
      (st.usage m).requests_today ≤
        (((check_and_wait_if_needed now st est).1).usage m).requests_today) ∧
    (∀ (name : String) (tok : Nat) (m : String),
      (st.usage m).requests_today ≤
        ((record_request now st name tok).usage m).requests_today) ∧
    (∀ m : String,
      (st.usage m).requests_today ≤
        (((get_usage_stats now st).1).usage m).requests_today) ∧
    (∀ (name : String) (tok : Nat) (err : Option String) (m : String),
      (st.usage m).requests_today ≤
        (((record_request_with_error_handling now st name tok
          err).1).usage m).requests_today ∨
      (m = name ∧
        (((record_request_with_error_handling now st name tok
          err).1).usage m).requests_today =
          (limitsOf st name).requests_per_day)) := by
  have hrec : ∀ (name : String) (tok : Nat) (m : String),
      (st.usage m).requests_today ≤
        ((record_request now st name tok).usage m).requests_today := by
    intro name tok m
    rw [record_request_requests_today_no_rollover (hday name) tok m]
    split <;> omega
  refine ⟨?_, hrec, ?_, ?_⟩
  · intro est m
    rw [check_and_wait_usage_no_rollover hday est]
  · intro m
    rw [get_usage_stats]
    exact le_of_eq (usage_stats_from_requests_today now _ st hday m).symm
  · intro name tok err m
    match err with
    | none => exact Or.inl (hrec name tok m)
    | some e =>
      by_cases hq : is_quota_exceeded_error e
      · by_cases hm : m = name
        · subst hm
          refine Or.inr ⟨rfl, ?_⟩
          rw [rrweh_usage_quota hq hday]
          simp
        · refine Or.inl ?_
          rw [rrweh_usage_quota hq hday, updateUsage_usage_ne st hm]
      · rw [rrweh_state_non_quota_some (by simpa using hq)]
        exact Or.inl (hrec name tok m)

/-- C5 witness: the monotonicity statement applied to the concrete
three-model state with all counters at 1 and no rollover pending. -/
theorem requests_today_monotone_within_day_witness :
    (∀ (est : Nat) (m : String),
      (quota_demo.usage m).requests_today ≤
        (((check_and_wait_if_needed 0 quota_demo est).1).usage m).requests_today) ∧
    (∀ (name : String) (tok : Nat) (m : String),
      (quota_demo.usage m).requests_today ≤
        ((record_request 0 quota_demo name tok).usage m).requests_today) ∧
    (∀ m : String,
      (quota_demo.usage m).requests_today ≤
        (((get_usage_stats 0 quota_demo).1).usage m).requests_today) ∧
    (∀ (name : String) (tok : Nat) (err : Option String) (m : String),
      (quota_demo.usage m).requests_today ≤
        (((record_request_with_error_handling 0 quota_demo name tok
          err).1).usage m).requests_today ∨
      (m = name ∧
        (((record_request_with_error_handling 0 quota_demo name tok
          err).1).usage m).requests_today =
          (limitsOf quota_demo name).requests_per_day)) :=
  requests_today_monotone_within_day 0 quota_demo
    (fun m => by change ¬ dateOf (0 : Int) < dateOf 0; decide)

/-- The controller state reached from the minimal one-model controller
after recording two requests (exceeding the deliberately tiny daily cap 1)
and then receiving a quota-classified API error. -/
def clamp_demo_limits : List (String × ModelLimits) :=
  [("M", ⟨10, 250000, 1, "M"⟩)]

def clamp_demo_base : GeminiRateLimiter :=
  { demo_state with model_limits := clamp_demo_limits }

def clamp_demo_recorded : GeminiRateLimiter :=
  record_request 1 (record_request 0 clamp_demo_base "M" 0) "M" 0

/-- C5 counterexample: all operations happen on the same calendar day
(instants 0, 1, 2), yet the quota-error handler lowers the failing model's
`requests_today` from 2 to its cap 1 — a strict decrease with no day
rollover involved. -/
theorem requests_today_decrease_counterexample :
    (clamp_demo_recorded.usage "M").requests_today = 2 ∧
    dateOf 0 = dateOf 2 ∧
    (((record_request_with_error_handling 2 clamp_demo_recorded "M" 0
        (some "ResourceExhausted: 429")).1).usage "M").requests_today = 1 := by
  refine ⟨by decide, by decide, by decide⟩

/-! ### C10: the current model only moves forward in priority -/

lemma reset_daily_current_model (now : Int) (st : GeminiRateLimiter)
    (n : String) :
    (reset_daily_counter_if_needed now st n).current_model =
      st.current_model := by
  rw [reset_daily_counter_if_needed]
  split <;> rfl

lemma reset_daily_model_priority (now : Int) (st : GeminiRateLimiter)
    (n : String) :
    (reset_daily_counter_if_needed now st n).model_priority =
      st.model_priority := by
  rw [reset_daily_counter_if_needed]
  split <;> rfl

lemma find_next_available_static (now : Int) :
    ∀ (l : List String) (st : GeminiRateLimiter),
      (find_next_available now st l).1.current_model = st.current_model ∧
      (find_next_available now st l).1.model_priority = st.model_priority
  | [], _ => ⟨rfl, rfl⟩
  | n :: rest, st => by
    rw [find_next_available]
    by_cases hx : (has_exceeded_daily_limit now st n).2 = true
    · rw [if_pos hx]
      have ih := find_next_available_static now rest
        (has_exceeded_daily_limit now st n).1
      exact ⟨ih.1.trans (reset_daily_current_model now st n),
        ih.2.trans (reset_daily_model_priority now st n)⟩
    · rw [if_neg hx]
      exact ⟨reset_daily_current_model now st n,
        reset_daily_model_priority now st n⟩

lemma find_next_available_mem (now : Int) :
    ∀ (l : List String) (st : GeminiRateLimiter) (m : String),
      (find_next_available now st l).2 = some m → m ∈ l
  | [], _, m, h => by simp [find_next_available] at h
  | n :: rest, st, m, h => by
    rw [find_next_available] at h
    by_cases hx : (has_exceeded_daily_limit now st n).2 = true
    · rw [if_pos hx] at h
      exact List.mem_cons_of_mem n
        (find_next_available_mem now rest _ m h)
    · rw [if_neg hx] at h
      simp only [Option.some.injEq] at h
      rw [← h]
      exact List.mem_cons_self n rest

lemma all_exhausted_from_static (now : Int) :
    ∀ (l : List String) (st : GeminiRateLimiter),
      (all_exhausted_from now st l).1.current_model = st.current_model ∧
      (all_exhausted_from now st l).1.model_priority = st.model_priority
  | [], _ => ⟨rfl, rfl⟩
  | n :: rest, st => by
    rw [all_exhausted_from]
    by_cases hx : (has_exceeded_daily_limit now st n).2 = true
    · rw [if_pos hx]
      have ih := all_exhausted_from_static now rest
        (has_exceeded_daily_limit now st n).1
      exact ⟨ih.1.trans (reset_daily_current_model now st n),
        ih.2.trans (reset_daily_model_priority now st n)⟩
    · rw [if_neg hx]
      exact ⟨reset_daily_current_model now st n,
        reset_daily_model_priority now st n⟩

lemma usage_stats_from_static (now : Int) :
    ∀ (l : List String) (st : GeminiRateLimiter),
      (usage_stats_from now st l).1.current_model = st.current_model
  | [], _ => rfl
  | n :: rest, st => by
    rw [usage_stats_from]
    exact (usage_stats_from_static now rest _).trans
      (reset_daily_current_model now (cleanup_old_records now st n) n)

lemma record_request_current_model (now : Int) (st : GeminiRateLimiter)
    (name : String) (tok : Nat) :
    (record_request now st name tok).current_model = st.current_model := by
  rw [record_request, updateUsage_current_model]
  exact reset_daily_current_model now (cleanup_old_records now st name) name

lemma lt_indexOf_of_mem_drop {l : List String} (hnd : l.Nodup) {i : ℕ}
    {m : String} (hm : m ∈ l.drop (i + 1)) : i < l.indexOf m := by
  obtain ⟨j, hj, hval⟩ := List.mem_iff_getElem.mp hm
  rw [List.getElem_drop] at hval
  rw [← hval, List.indexOf_getElem hnd]
  omega

/-- Either `check_and_wait_if_needed` keeps the current model, or it moves
to a model drawn from strictly after the current one in the priority
list. -/
lemma check_and_wait_current_model_cases (now : Int)
    (st : GeminiRateLimiter) (est : Nat) :
    ((check_and_wait_if_needed now st est).1).current_model =
      st.current_model ∨
    ∃ m, m ∈ st.model_priority.drop
        (st.model_priority.indexOf st.current_model + 1) ∧
      ((check_and_wait_if_needed now st est).1).current_model = m := by
  rw [check_and_wait_if_needed]
  by_cases hex : has_exceeded_daily_limit_no_reset st st.current_model
  · simp only [hex, if_true, get_next_available_model]
    rcases hres : find_next_available now st (st.model_priority.drop
        (st.model_priority.indexOf st.current_model + 1)) with ⟨st1, r⟩
    rcases r with _ | m
    · left
      simp only [hres]
      have := (find_next_available_static now (st.model_priority.drop
        (st.model_priority.indexOf st.current_model + 1)) st).1
      rw [hres] at this
      exact this
    · right
      refine ⟨m, find_next_available_mem now _ st m (by rw [hres]), ?_⟩
      simp only [hres]
  · simp only [hex, Bool.false_eq_true, if_false]
    left
    split <;> rfl

/-- Either `record_request_with_error_handling` keeps the current model, or
it moves to a model drawn from strictly after the current one in the
priority list. -/
lemma rrweh_current_model_cases (now : Int) (st : GeminiRateLimiter)
    (name : String) (tok : Nat) (err : Option String) :
    ((record_request_with_error_handling now st name tok
        err).1).current_model = st.current_model ∨
    ∃ m, m ∈ st.model_priority.drop
        (st.model_priority.indexOf st.current_model + 1) ∧
      ((record_request_with_error_handling now st name tok
        err).1).current_model = m := by
  match err with
  | none =>
    left
    exact record_request_current_model now st name tok
  | some e =>
    by_cases hq : is_quota_exceeded_error e = true
    · rw [record_request_with_error_handling]
      simp only [hq, if_true]
      rcases hres0 : are_all_models_exhausted now st with ⟨st1, b⟩
      have hstat0 := all_exhausted_from_static now
        (st.model_limits.map Prod.fst) st
      rw [show all_exhausted_from now st (st.model_limits.map Prod.fst) =
          are_all_models_exhausted now st from rfl, hres0] at hstat0
      have hcur1 : st1.current_model = st.current_model := hstat0.1
      have hpri1 : st1.model_priority = st.model_priority := hstat0.2
      simp only [get_next_available_model, updateUsage_model_priority,
        updateUsage_current_model, hcur1, hpri1]
      rcases hres1 : find_next_available now
          (updateUsage st1 name
            { st1.usage name with
                requests_today := (limitsOf st1 name).requests_per_day })
          (st.model_priority.drop
            (st.model_priority.indexOf st.current_model + 1)) with ⟨st3, r⟩
      have hstat1 := find_next_available_static now
        (st.model_priority.drop
          (st.model_priority.indexOf st.current_model + 1))
        (updateUsage st1 name
          { st1.usage name with
              requests_today := (limitsOf st1 name).requests_per_day })
      rw [hres1] at hstat1
      have hcur3 : st3.current_model = st.current_model :=
        (hstat1.1.trans (updateUsage_current_model st1 name _)).trans hcur1
      rcases r with _ | nm
      · left
        dsimp only
        split <;> exact hcur3
      · dsimp only
        by_cases hnm : nm ≠ st3.current_model
        · right
          refine ⟨nm, find_next_available_mem now _ _ nm (by rw [hres1]), ?_⟩
          rw [if_pos hnm]
        · left
          rw [if_neg hnm]
          dsimp only
          split <;> exact hcur3
    · rw [record_request_with_error_handling]
      simp only [hq, Bool.false_eq_true, if_false]
      left
      exact record_request_current_model now st name tok

/-- C10: the position of the current model in the priority list never
decreases: `check_and_wait_if_needed` and
`record_request_with_error_handling` only ever switch to a model strictly
later in priority (their search starts after the current position), and
`record_request` and `get_usage_stats` never change the current model, so
no operation moves the controller back to an earlier, higher-priority
model. -/
theorem current_model_priority_monotone (now : Int) (st : GeminiRateLimiter)
    (hnd : st.model_priority.Nodup) :
    (∀ est : Nat,
      st.model_priority.indexOf st.current_model ≤
        st.model_priority.indexOf
          (((check_and_wait_if_needed now st est).1).current_model)) ∧
    (∀ (name : String) (tok : Nat) (err : Option String),
      st.model_priority.indexOf st.current_model ≤
        st.model_priority.indexOf
          (((record_request_with_error_handling now st name tok
            err).1).current_model)) ∧
    (∀ (name : String) (tok : Nat),
      (record_request now st name tok).current_model = st.current_model) ∧
    ((get_usage_stats now st).1.current_model = st.current_model) := by
  refine ⟨?_, ?_, fun name tok => record_request_current_model now st name tok,
    usage_stats_from_static now (st.model_limits.map Prod.fst) st⟩
  · intro est
    rcases check_and_wait_current_model_cases now st est with h | ⟨m, hm, h⟩
    · rw [h]
    · rw [h]
      exact le_of_lt (lt_indexOf_of_mem_drop hnd hm)
  · intro name tok err
    rcases rrweh_current_model_cases now st name tok err with h | ⟨m, hm, h⟩
    · rw [h]
    · rw [h]
      exact le_of_lt (lt_indexOf_of_mem_drop hnd hm)

/-- C10 witness: the monotonicity statement applied to the concrete
three-model state (its priority list is duplicate-free). -/
theorem current_model_priority_monotone_witness :
    (∀ est : Nat,
      fallback_demo.model_priority.indexOf fallback_demo.current_model ≤
        fallback_demo.model_priority.indexOf
          (((check_and_wait_if_needed 0 fallback_demo est).1).current_model)) ∧
    (∀ (name : String) (tok : Nat) (err : Option String),
      fallback_demo.model_priority.indexOf fallback_demo.current_model ≤
        fallback_demo.model_priority.indexOf
          (((record_request_with_error_handling 0 fallback_demo name tok
            err).1).current_model)) ∧
    (∀ (name : String) (tok : Nat),
      (record_request 0 fallback_demo name tok).current_model =
        fallback_demo.current_model) ∧
    ((get_usage_stats 0 fallback_demo).1.current_model =
      fallback_demo.current_model) :=
  current_model_priority_monotone 0 fallback_demo (by decide)

/-! ### C8: persistence round trip -/

/-- Encoding an instant as an ISO-8601 timestamp and parsing it back is the
identity. -/
lemma parse_iso_roundtrip (now t : Int) :
    parse_timestamp now (.iso (isoOfInstant t)) = t := by
  show t / 86400 * 86400 + t % 86400 = t
  rw [mul_comm]
  exact Int.ediv_add_emod t 86400

/-- Saving records with ISO timestamps and reloading them keeps exactly the
records inside the 60-second window, with their original timestamps. -/
lemma stored_records_roundtrip (now : Int) (l : List RequestRecord) :
    ((l.map fun r => ({ timestamp := .iso (isoOfInstant r.timestamp),
                        tokens := r.tokens } : StoredRecord)).filterMap fun r =>
      let ts := parse_timestamp now r.timestamp
      if now - 60 < ts then some (⟨ts, r.tokens⟩ : RequestRecord)
      else none) =
      l.filter fun (r : RequestRecord) => now - 60 < r.timestamp := by
  induction l with
  | nil => rfl
  | cons a l ih =>
    simp only [List.map_cons, List.filterMap_cons, List.filter_cons]
    rw [show (parse_timestamp now (.iso (isoOfInstant a.timestamp))) =
      a.timestamp from parse_iso_roundtrip now a.timestamp]
    by_cases h : now - 60 < a.timestamp
    · simp [h, ih]
    · simp [h, ih]

lemma load_step_model_limits (st : GeminiRateLimiter)
    (e : String × StoredModelUsage) (u : ModelUsage) :
    (if (st.model_limits.map Prod.fst).contains e.1 then
        updateUsage st e.1 u
      else st).model_limits = st.model_limits := by
  split <;> rfl

lemma load_usage_data_skip (now : Int) :
    ∀ (data : List (String × StoredModelUsage)) (st : GeminiRateLimiter)
      (m : String), m ∉ data.map Prod.fst →
      (load_usage_data now data st).usage m = st.usage m
  | [], _, _, _ => rfl
  | e :: es, st, m, h => by
    have hne : m ≠ e.1 := by
      intro hcontra
      exact h (by simp [hcontra])
    have htail : m ∉ es.map Prod.fst := by
      intro hcontra
      exact h (by simp [hcontra])
    rw [load_usage_data, List.foldl_cons, ← load_usage_data]
    rw [load_usage_data_skip now es _ m htail]
    split
    · exact updateUsage_usage_ne st hne _
    · rfl

lemma load_usage_data_on_key (now : Int) :
    ∀ (data : List (String × StoredModelUsage)) (st : GeminiRateLimiter)
      (m : String) (sd : StoredModelUsage),
      (m, sd) ∈ data → (data.map Prod.fst).Nodup →
      (st.model_limits.map Prod.fst).contains m = true →
      (load_usage_data now data st).usage m =
        { requests_today :=
            if dateOf (parse_timestamp now sd.last_day_reset) < dateOf now
            then 0 else sd.requests_today,
          last_day_reset :=
            if dateOf (parse_timestamp now sd.last_day_reset) < dateOf now
            then now else parse_timestamp now sd.last_day_reset,
          request_records := sd.request_records.filterMap fun r =>
            let ts := parse_timestamp now r.timestamp
            if now - 60 < ts then some ⟨ts, r.tokens⟩ else none }
  | [], _, _, _, hmem, _, _ => absurd hmem (List.not_mem_nil _)
  | ⟨k, v⟩ :: es, st, m, sd, hmem, hnd, hcont => by
    rw [load_usage_data, List.foldl_cons, ← load_usage_data]
    rcases List.mem_cons.mp hmem with heq | htail
    · injection heq with h1 h2
      subst h1
      subst h2
      have hnotin : m ∉ es.map Prod.fst := by
        rw [List.map_cons, List.nodup_cons] at hnd
        exact hnd.1
      rw [load_usage_data_skip now es _ m hnotin]
      rw [if_pos hcont]
      exact updateUsage_usage_self st m _
    · have hnd1 : (es.map Prod.fst).Nodup := by
        rw [List.map_cons, List.nodup_cons] at hnd
        exact hnd.2
      refine load_usage_data_on_key now es _ m sd htail hnd1 ?_
      rw [load_step_model_limits]
      exact hcont

/-- C8: saving the ledger and loading it into a fresh controller at instant
`now` reproduces each configured model's `requests_today`,
`last_day_reset` and most recent 20 request records exactly, up to the
reconciliation applied on load: records outside the 60-second window at
reload time are dropped, and `requests_today` is zeroed (with
`last_day_reset` restamped) when the saved reset instant lies on an
earlier calendar date; every timestamp survives the ISO-8601 encoding
round trip. -/
theorem persistence_roundtrip (st : GeminiRateLimiter) (now : Int)
    (hlim : st.model_limits = default_model_limits)
    (m : String) (hm : m ∈ default_model_limits.map Prod.fst) :
    (∀ t : Int, parse_timestamp now (.iso (isoOfInstant t)) = t) ∧
    (mkGeminiRateLimiter now (save_usage_data st)).usage m =
      { requests_today :=
          if dateOf ((st.usage m).last_day_reset) < dateOf now then 0
          else (st.usage m).requests_today,
        last_day_reset :=
          if dateOf ((st.usage m).last_day_reset) < dateOf now then now
          else (st.usage m).last_day_reset,
        request_records :=
          ((st.usage m).request_records.drop
            ((st.usage m).request_records.length - 20)).filter
            fun (r : RequestRecord) => now - 60 < r.timestamp } := by
  refine ⟨fun t => parse_iso_roundtrip now t, ?_⟩
  have hmem : (m, ({ requests_today := (st.usage m).requests_today,
                     last_day_reset :=
                       .iso (isoOfInstant ((st.usage m).last_day_reset)),
                     request_records := ((st.usage m).request_records.drop
                       ((st.usage m).request_records.length - 20)).map fun r =>
                         { timestamp := .iso (isoOfInstant r.timestamp),
                           tokens := r.tokens } } : StoredModelUsage)) ∈
      save_usage_data st := by
    rw [save_usage_data, hlim]
    obtain ⟨p, hp, hfst⟩ := List.mem_map.mp hm
    exact List.mem_map.mpr ⟨p, hp, by rw [hfst]⟩
  have hkeys : (save_usage_data st).map Prod.fst =
      default_model_limits.map Prod.fst := by
    rw [save_usage_data, List.map_map, hlim]
    rfl
  have hnd : ((save_usage_data st).map Prod.fst).Nodup := by
    rw [hkeys]
    decide
  have hcont : ((default_model_limits.map Prod.fst).contains m) = true :=
    List.elem_eq_true_of_mem hm
  rw [mkGeminiRateLimiter]
  rw [load_usage_data_on_key now (save_usage_data st) _ m _ hmem hnd hcont]
  rw [parse_iso_roundtrip, stored_records_roundtrip]

/-- A controller carrying the real limit table with some usage to persist:
7 requests today, reset instant 100, two records. -/
def persist_demo : GeminiRateLimiter :=
  { mkGeminiRateLimiter 0 [] with
    usage := fun _ => ⟨7, 100, [⟨50, 3⟩, ⟨80, 4⟩]⟩ }

/-- C8 witness: the round trip applied to the concrete controller, reloaded
at instant 120 (same calendar day; the record at 50 is now outside the
60-second window, the one at 80 inside). -/
theorem persistence_roundtrip_witness :
    (∀ t : Int, parse_timestamp 120 (.iso (isoOfInstant t)) = t) ∧
    (mkGeminiRateLimiter 120 (save_usage_data persist_demo)).usage
        "gemini-2.5-flash" =
      { requests_today :=
          if dateOf ((persist_demo.usage "gemini-2.5-flash").last_day_reset) <
            dateOf 120 then 0
          else (persist_demo.usage "gemini-2.5-flash").requests_today,
        last_day_reset :=
          if dateOf ((persist_demo.usage "gemini-2.5-flash").last_day_reset) <
            dateOf 120 then 120
          else (persist_demo.usage "gemini-2.5-flash").last_day_reset,
        request_records :=
          ((persist_demo.usage "gemini-2.5-flash").request_records.drop
            ((persist_demo.usage "gemini-2.5-flash").request_records.length -
              20)).filter
            fun (r : RequestRecord) => 120 - 60 < r.timestamp } :=
  persistence_roundtrip persist_demo 120 rfl "gemini-2.5-flash" (by decide)

/-- A usage entry with records at seconds 0 and 2. -/
def window_gap_demo : ModelUsage :=
  ⟨0, 0, [⟨0, 5⟩, ⟨2, 7⟩]⟩

/-- C4 witness: with records at seconds 0 and 2 (the second strictly inside
the window at instant 61), the window 61 seconds past the oldest record
counts exactly the one remaining record. -/
theorem sliding_window_aggregates_witness :
    requests_this_minute ((0 : Int) + 61) window_gap_demo = 1 :=
  (sliding_window_aggregates ((0 : Int) + 61) window_gap_demo).2.2.2
    ⟨0, 5⟩ [⟨2, 7⟩] rfl (by decide)

end RobotsAI
